/-
  Verification of the spatial core of BasicPlottedMap (src/script.js):
  the haversine distance function calculateDistance, the grid clusterer
  createGridClusters, and the proximity query findNearbyPoints.

  JavaScript numbers are modelled as real numbers.  JS Array.prototype.sort
  with a numeric comparator is stable (ES2019), so it is modelled by the
  stable List.mergeSort; the insertion-ordered Map used by the clusterer is
  modelled by an association list updated in place (addToCluster).
-/
import Mathlib

open Classical Real

/-- A geographic point as produced by the point source in script.js:
an id, a display name, latitude, longitude, a category and a description. -/
structure Point where
  id : ℕ
  name : String
  lat : ℝ
  lng : ℝ
  category : String
  description : String

/-- A grid cluster as built by createGridClusters: the integer grid cell
coordinates and the ordered member list. -/
structure Cluster where
  gridX : ℤ
  gridY : ℤ
  points : List Point

/-- Math.atan2 on real inputs (the principal-value arctangent of y/x,
adjusted by quadrant; atan2 0 0 = 0 as in JS). -/
noncomputable def atan2 (y x : ℝ) : ℝ :=
  if 0 < x then Real.arctan (y / x)
  else if x < 0 then
    (if 0 ≤ y then Real.arctan (y / x) + π else Real.arctan (y / x) - π)
  else
    (if 0 < y then π / 2 else if y < 0 then -(π / 2) else 0)

/-- calculateDistance from script.js: haversine great-circle distance in km,
Earth radius 6371 km. -/
noncomputable def calculateDistance (lat1 lon1 lat2 lon2 : ℝ) : ℝ :=
  let R : ℝ := 6371
  let dLat := (lat2 - lat1) * π / 180
  let dLon := (lon2 - lon1) * π / 180
  let a := Real.sin (dLat / 2) * Real.sin (dLat / 2) +
    Real.cos (lat1 * π / 180) * Real.cos (lat2 * π / 180) *
      Real.sin (dLon / 2) * Real.sin (dLon / 2)
  let c := 2 * atan2 (Real.sqrt a) (Real.sqrt (1 - a))
  R * c

/-- The distance from a query center to a point, as computed inside both the
filter and the sort comparator of findNearbyPoints. -/
noncomputable def pointDistance (center : ℝ × ℝ) (p : Point) : ℝ :=
  calculateDistance center.1 center.2 p.lat p.lng

/-- The core of findNearbyPoints from script.js: keep the points whose
distance from the center is at most the radius, then sort ascending by
distance (stable sort, as in modern JS engines). -/
noncomputable def findNearbyPoints (points : List Point) (center : ℝ × ℝ)
    (radius : ℝ) : List Point :=
  (points.filter fun p => decide (pointDistance center p ≤ radius)).mergeSort
    (fun a b => decide (pointDistance center a ≤ pointDistance center b))

/-- Insert a point into the cluster list held by the insertion-ordered Map of
createGridClusters: append to the first cluster with the given grid
coordinates, or append a fresh cluster at the end. -/
def addToCluster (acc : List Cluster) (gx gy : ℤ) (p : Point) : List Cluster :=
  match acc with
  | [] => [⟨gx, gy, [p]⟩]
  | c :: rest =>
    if c.gridX = gx ∧ c.gridY = gy then
      ⟨c.gridX, c.gridY, c.points ++ [p]⟩ :: rest
    else
      c :: addToCluster rest gx gy p

/-- createGridClusters from script.js: bucket every point by the integer pair
(floor(lat / gridSize), floor(lng / gridSize)), keeping Map insertion order. -/
noncomputable def createGridClusters (points : List Point) (gridSize : ℝ) :
    List Cluster :=
  points.foldl
    (fun clusters point =>
      addToCluster clusters ⌊point.lat / gridSize⌋ ⌊point.lng / gridSize⌋ point)
    []

/-- The cell key of a point for a given cell size, as in the spec:
(floor(lat / cellSizeDegrees), floor(lon / cellSizeDegrees)). -/
noncomputable def cellKey (s : ℝ) (p : Point) : ℤ × ℤ :=
  (⌊p.lat / s⌋, ⌊p.lng / s⌋)

/-- Modelled from the spec: the sequence of cell keys in order of first
appearance in the input, the reference cluster ordering of the spec. -/
noncomputable def firstAppearanceKeys (points : List Point) (s : ℝ) :
    List (ℤ × ℤ) :=
  points.foldl
    (fun ks p => if cellKey s p ∈ ks then ks else ks ++ [cellKey s p]) []

/-- The haversine intermediate value a of calculateDistance, written without
local bindings. -/
noncomputable def haverA (lat1 lon1 lat2 lon2 : ℝ) : ℝ :=
  Real.sin ((lat2 - lat1) * π / 180 / 2) * Real.sin ((lat2 - lat1) * π / 180 / 2) +
    Real.cos (lat1 * π / 180) * Real.cos (lat2 * π / 180) *
      Real.sin ((lon2 - lon1) * π / 180 / 2) * Real.sin ((lon2 - lon1) * π / 180 / 2)

/-- A fixed sample point used to instantiate theorems with hypotheses. -/
def pt0 : Point :=
  ⟨1, "New York City", 0, 0, "city", "sample"⟩

lemma atan2_nonneg (y x : ℝ) (hy : 0 ≤ y) : 0 ≤ atan2 y x := by
  have hpi := Real.pi_pos
  have harc : ∀ z : ℝ, 0 ≤ z → 0 ≤ Real.arctan z := by
    intro z hz
    have h := Real.arctan_strictMono.monotone hz
    rwa [Real.arctan_zero] at h
  unfold atan2
  rcases lt_trichotomy x 0 with hx | hx | hx
  · rw [if_neg (by linarith), if_pos hx, if_pos hy]
    have h := Real.neg_pi_div_two_lt_arctan (y / x)
    linarith
  · subst hx
    rw [if_neg (lt_irrefl 0), if_neg (lt_irrefl 0)]
    rcases eq_or_lt_of_le hy with hy2 | hy2
    · rw [← hy2, if_neg (lt_irrefl 0), if_neg (lt_irrefl 0)]
    · rw [if_pos hy2]
      linarith
  · rw [if_pos hx]
    exact harc _ (div_nonneg hy hx.le)

lemma calculateDistance_def (lat1 lon1 lat2 lon2 : ℝ) :
    calculateDistance lat1 lon1 lat2 lon2 =
      6371 * (2 * atan2 (Real.sqrt (haverA lat1 lon1 lat2 lon2))
        (Real.sqrt (1 - haverA lat1 lon1 lat2 lon2))) := rfl

lemma calculateDistance_nonneg (lat1 lon1 lat2 lon2 : ℝ) :
    0 ≤ calculateDistance lat1 lon1 lat2 lon2 := by
  rw [calculateDistance_def]
  have h := atan2_nonneg (Real.sqrt (haverA lat1 lon1 lat2 lon2))
    (Real.sqrt (1 - haverA lat1 lon1 lat2 lon2)) (Real.sqrt_nonneg _)
  have h2 : (0:ℝ) ≤ 2 := by norm_num
  have h3 : (0:ℝ) ≤ 6371 := by norm_num
  exact mul_nonneg h3 (mul_nonneg h2 h)

lemma haverA_self (lat lon : ℝ) : haverA lat lon lat lon = 0 := by
  simp [haverA]

lemma calculateDistance_self (lat lon : ℝ) :
    calculateDistance lat lon lat lon = 0 := by
  rw [calculateDistance_def, haverA_self]
  simp [atan2]

lemma haverA_symm (lat1 lon1 lat2 lon2 : ℝ) :
    haverA lat1 lon1 lat2 lon2 = haverA lat2 lon2 lat1 lon1 := by
  unfold haverA
  have h1 : (lat1 - lat2) * π / 180 / 2 = -((lat2 - lat1) * π / 180 / 2) := by ring
  have h2 : (lon1 - lon2) * π / 180 / 2 = -((lon2 - lon1) * π / 180 / 2) := by ring
  rw [h1, h2, Real.sin_neg, Real.sin_neg]
  ring

/-- C5: the distance function is symmetric: swapping the two coordinate
pairs leaves calculateDistance unchanged. -/
theorem calculateDistance_symm (lat1 lon1 lat2 lon2 : ℝ) :
    calculateDistance lat1 lon1 lat2 lon2 = calculateDistance lat2 lon2 lat1 lon1 := by
  rw [calculateDistance_def, calculateDistance_def, haverA_symm]

/-- C6: calculateDistance returns exactly zero on identical coordinates, and
its result is non-negative for every pair of coordinates. -/
theorem calculateDistance_identity_and_nonneg :
    (∀ lat lon : ℝ, calculateDistance lat lon lat lon = 0) ∧
      ∀ lat1 lon1 lat2 lon2 : ℝ, 0 ≤ calculateDistance lat1 lon1 lat2 lon2 :=
  ⟨calculateDistance_self, calculateDistance_nonneg⟩

lemma nearLE_trans (center : ℝ × ℝ) : ∀ a b c : Point,
    decide (pointDistance center a ≤ pointDistance center b) = true →
    decide (pointDistance center b ≤ pointDistance center c) = true →
    decide (pointDistance center a ≤ pointDistance center c) = true := by
  intro a b c hab hbc
  simp only [decide_eq_true_eq] at hab hbc ⊢
  exact le_trans hab hbc

lemma nearLE_total (center : ℝ × ℝ) : ∀ a b : Point,
    (decide (pointDistance center a ≤ pointDistance center b) ||
      decide (pointDistance center b ≤ pointDistance center a)) = true := by
  intro a b
  simp only [Bool.or_eq_true, decide_eq_true_eq]
  exact le_total _ _

/-- C1: findNearbyPoints returns exactly the input points with distance at
most radiusKm from the center (inclusive boundary, multiplicities kept),
in non-decreasing order of distance, and points at equal distance keep
their input order (stable tie-break). -/
theorem findNearby_characterization (points : List Point) (center : ℝ × ℝ)
    (radius : ℝ) :
    (∀ p : Point,
        (findNearbyPoints points center radius).count p =
          if pointDistance center p ≤ radius then points.count p else 0) ∧
      (findNearbyPoints points center radius).Pairwise
        (fun a b => pointDistance center a ≤ pointDistance center b) ∧
      ∀ v : ℝ,
        (findNearbyPoints points center radius).filter
            (fun p => decide (pointDistance center p = v)) =
          points.filter
            (fun p => decide (pointDistance center p = v) &&
              decide (pointDistance center p ≤ radius)) := by
  unfold findNearbyPoints
  have hperm :
      List.Perm
        ((points.filter fun p =>
            decide (pointDistance center p ≤ radius)).mergeSort
          (fun a b => decide (pointDistance center a ≤ pointDistance center b)))
        (points.filter fun p => decide (pointDistance center p ≤ radius)) :=
    List.mergeSort_perm _ _
  refine ⟨?_, ?_, ?_⟩
  · intro p
    rw [hperm.count_eq p]
    by_cases hdp : pointDistance center p ≤ radius
    · rw [if_pos hdp]
      have hfp : (fun q => decide (pointDistance center q ≤ radius)) p = true :=
        decide_eq_true hdp
      exact List.count_filter hfp
    · rw [if_neg hdp, List.count_eq_zero]
      intro hmem
      rw [List.mem_filter] at hmem
      exact hdp (of_decide_eq_true hmem.2)
  · have hs := List.sorted_mergeSort (nearLE_trans center) (nearLE_total center)
      (points.filter fun p => decide (pointDistance center p ≤ radius))
    exact hs.imp (fun h => of_decide_eq_true h)
  · intro v
    rw [← List.filter_filter]
    have hcpw :
        ((points.filter fun p => decide (pointDistance center p ≤ radius)).filter
            (fun p => decide (pointDistance center p = v))).Pairwise
          (fun a b =>
            decide (pointDistance center a ≤ pointDistance center b) = true) := by
      apply List.pairwise_of_forall_mem_list
      intro a ha b hb
      rw [List.mem_filter] at ha hb
      have hav := of_decide_eq_true ha.2
      have hbv := of_decide_eq_true hb.2
      exact decide_eq_true (le_of_eq (by rw [hav, hbv]))
    have hcq :
        ((points.filter fun p => decide (pointDistance center p ≤ radius)).filter
            (fun p => decide (pointDistance center p = v))).filter
          (fun p => decide (pointDistance center p = v)) =
        (points.filter fun p => decide (pointDistance center p ≤ radius)).filter
            (fun p => decide (pointDistance center p = v)) := by
      rw [List.filter_eq_self]
      intro a ha
      rw [List.mem_filter] at ha
      exact ha.2
    have hsub2 :
        List.Sublist
          ((points.filter fun p => decide (pointDistance center p ≤ radius)).filter
            (fun p => decide (pointDistance center p = v)))
          ((points.filter fun p =>
              decide (pointDistance center p ≤ radius)).mergeSort
            (fun a b => decide (pointDistance center a ≤ pointDistance center b))) :=
      List.sublist_mergeSort (nearLE_trans center) (nearLE_total center) hcpw
        (List.filter_sublist _)
    have hsub3 :
        List.Sublist
          ((points.filter fun p => decide (pointDistance center p ≤ radius)).filter
            (fun p => decide (pointDistance center p = v)))
          (((points.filter fun p =>
              decide (pointDistance center p ≤ radius)).mergeSort
            (fun a b =>
              decide (pointDistance center a ≤ pointDistance center b))).filter
            (fun p => decide (pointDistance center p = v))) := by
      have h := hsub2.filter (fun p => decide (pointDistance center p = v))
      rwa [hcq] at h
    have hpermf :
        List.Perm
          ((((points.filter fun p =>
                decide (pointDistance center p ≤ radius)).mergeSort
              (fun a b =>
                decide (pointDistance center a ≤ pointDistance center b))).filter
            (fun p => decide (pointDistance center p = v))))
          (((points.filter fun p => decide (pointDistance center p ≤ radius)).filter
            (fun p => decide (pointDistance center p = v)))) :=
      hperm.filter _
    exact (hsub3.eq_of_length hpermf.length_eq.symm).symm

/-- C8: on an empty point collection both operations return an empty
sequence: createGridClusters [] s = [] for every cell size s, and
findNearbyPoints [] center r = [] for every center and radius. -/
theorem emptyInput_both_empty (s : ℝ) (center : ℝ × ℝ) (r : ℝ) :
    createGridClusters [] s = [] ∧ findNearbyPoints [] center r = [] := by
  constructor
  · rfl
  · simp [findNearbyPoints]

lemma addToCluster_map_not_mem (ks : List (ℤ × ℤ)) (f : ℤ × ℤ → List Point)
    (gx gy : ℤ) (p : Point) (h : (gx, gy) ∉ ks) :
    addToCluster (ks.map fun k => ⟨k.1, k.2, f k⟩) gx gy p =
      (ks.map fun k => ⟨k.1, k.2, f k⟩) ++ [⟨gx, gy, [p]⟩] := by
  induction ks with
  | nil => rfl
  | cons k ks ih =>
    simp only [List.map_cons, addToCluster]
    have hk : ¬(k.1 = gx ∧ k.2 = gy) := by
      intro hc
      apply h
      have hkeq : k = (gx, gy) := Prod.ext_iff.mpr hc
      rw [← hkeq]
      exact List.mem_cons_self k _
    rw [if_neg hk, ih (fun hm => h (List.mem_cons_of_mem _ hm))]
    rfl

lemma addToCluster_map_mem (ks : List (ℤ × ℤ)) (f : ℤ × ℤ → List Point)
    (gx gy : ℤ) (p : Point) (hnd : ks.Nodup) (h : (gx, gy) ∈ ks) :
    addToCluster (ks.map fun k => ⟨k.1, k.2, f k⟩) gx gy p =
      ks.map fun k => ⟨k.1, k.2, if k = (gx, gy) then f k ++ [p] else f k⟩ := by
  induction ks with
  | nil => exact absurd h (List.not_mem_nil _)
  | cons k ks ih =>
    rw [List.nodup_cons] at hnd
    rcases List.mem_cons.mp h with hk | hk
    · subst hk
      simp only [List.map_cons, addToCluster, and_self, if_true]
      congr 1
      apply List.map_congr_left
      intro a ha
      have hne : a ≠ (gx, gy) := by
        intro he
        exact hnd.1 (he ▸ ha)
      rw [if_neg hne]
    · have hne : ¬(k.1 = gx ∧ k.2 = gy) := by
        intro hc
        have hkeq : k = (gx, gy) := Prod.ext_iff.mpr hc
        exact hnd.1 (hkeq ▸ hk)
      simp only [List.map_cons, addToCluster]
      rw [if_neg hne, ih hnd.2 hk, if_neg (fun he => hne (Prod.ext_iff.mp he))]

lemma firstAppearanceKeys_invariant (s : ℝ) (ps : List Point) :
    ∀ ks : List (ℤ × ℤ),
      (∀ k, k ∈ ps.foldl
          (fun ks p => if cellKey s p ∈ ks then ks else ks ++ [cellKey s p]) ks ↔
        k ∈ ks ∨ ∃ q ∈ ps, cellKey s q = k) ∧
      (ks.Nodup → (ps.foldl
          (fun ks p => if cellKey s p ∈ ks then ks else ks ++ [cellKey s p]) ks).Nodup) := by
  induction ps with
  | nil => intro ks; simp
  | cons p ps ih =>
    intro ks
    simp only [List.foldl_cons]
    constructor
    · intro k
      rw [(ih _).1 k]
      by_cases hm : cellKey s p ∈ ks
      · rw [if_pos hm]
        constructor
        · rintro (hk | hk)
          · exact Or.inl hk
          · exact Or.inr ⟨hk.choose, List.mem_cons_of_mem _ hk.choose_spec.1, hk.choose_spec.2⟩
        · rintro (hk | ⟨q, hq, hqk⟩)
          · exact Or.inl hk
          · rcases List.mem_cons.mp hq with hq1 | hq1
            · subst hq1
              exact Or.inl (hqk ▸ hm)
            · exact Or.inr ⟨q, hq1, hqk⟩
      · rw [if_neg hm]
        constructor
        · rintro (hk | hk)
          · rcases List.mem_append.mp hk with hk1 | hk1
            · exact Or.inl hk1
            · refine Or.inr ⟨p, List.mem_cons_self _ _, ?_⟩
              rcases List.mem_singleton.mp hk1 with h1
              exact h1.symm
          · exact Or.inr ⟨hk.choose, List.mem_cons_of_mem _ hk.choose_spec.1, hk.choose_spec.2⟩
        · rintro (hk | ⟨q, hq, hqk⟩)
          · exact Or.inl (List.mem_append_left _ hk)
          · rcases List.mem_cons.mp hq with hq1 | hq1
            · subst hq1
              exact Or.inl (List.mem_append_right _ (List.mem_singleton.mpr hqk.symm))
            · exact Or.inr ⟨q, hq1, hqk⟩
    · intro hnd
      by_cases hm : cellKey s p ∈ ks
      · rw [if_pos hm]
        exact (ih _).2 hnd
      · rw [if_neg hm]
        refine (ih _).2 ?_
        rw [List.nodup_append]
        exact ⟨hnd, List.nodup_singleton _, by simpa using fun h => hm h⟩

lemma mem_firstAppearanceKeys (points : List Point) (s : ℝ) (k : ℤ × ℤ) :
    k ∈ firstAppearanceKeys points s ↔ ∃ q ∈ points, cellKey s q = k := by
  unfold firstAppearanceKeys
  rw [(firstAppearanceKeys_invariant s points []).1 k]
  simp

lemma firstAppearanceKeys_nodup (points : List Point) (s : ℝ) :
    (firstAppearanceKeys points s).Nodup := by
  unfold firstAppearanceKeys
  exact (firstAppearanceKeys_invariant s points []).2 List.nodup_nil

lemma createGridClusters_characterization (points : List Point) (s : ℝ) :
    createGridClusters points s =
      (firstAppearanceKeys points s).map
        (fun k => ⟨k.1, k.2,
          points.filter (fun p => decide (cellKey s p = k))⟩) := by
  induction points using List.reverseRecOn with
  | nil => rfl
  | append_singleton ps p ih =>
    have hfold : createGridClusters (ps ++ [p]) s =
        addToCluster (createGridClusters ps s) ⌊p.lat / s⌋ ⌊p.lng / s⌋ p := by
      unfold createGridClusters
      rw [List.foldl_append]
      rfl
    have hkeys : firstAppearanceKeys (ps ++ [p]) s =
        if cellKey s p ∈ firstAppearanceKeys ps s then firstAppearanceKeys ps s
        else firstAppearanceKeys ps s ++ [cellKey s p] := by
      unfold firstAppearanceKeys
      rw [List.foldl_append]
      rfl
    rw [hfold, ih, hkeys]
    by_cases hmem : cellKey s p ∈ firstAppearanceKeys ps s
    · rw [if_pos hmem]
      have hmm := addToCluster_map_mem (firstAppearanceKeys ps s)
        (fun k => ps.filter (fun q => decide (cellKey s q = k)))
        ⌊p.lat / s⌋ ⌊p.lng / s⌋ p (firstAppearanceKeys_nodup ps s)
        (show (⌊p.lat / s⌋, ⌊p.lng / s⌋) ∈ firstAppearanceKeys ps s from hmem)
      rw [hmm]
      apply List.map_congr_left
      intro k hk
      rw [List.filter_append, List.filter_singleton]
      by_cases hkp : k = (⌊p.lat / s⌋, ⌊p.lng / s⌋)
      · rw [if_pos hkp]
        have hck : cellKey s p = k := hkp.symm
        rw [decide_eq_true hck]
        rfl
      · rw [if_neg hkp]
        have hck : ¬(cellKey s p = k) := by
          intro h
          exact hkp (show k = (⌊p.lat / s⌋, ⌊p.lng / s⌋) from h.symm)
        rw [decide_eq_false hck]
        simp
    · rw [if_neg hmem]
      have hmm := addToCluster_map_not_mem (firstAppearanceKeys ps s)
        (fun k => ps.filter (fun q => decide (cellKey s q = k)))
        ⌊p.lat / s⌋ ⌊p.lng / s⌋ p
        (show (⌊p.lat / s⌋, ⌊p.lng / s⌋) ∉ firstAppearanceKeys ps s from hmem)
      rw [hmm, List.map_append]
      congr 1
      · apply List.map_congr_left
        intro k hk
        have hck : ¬(cellKey s p = k) := by
          intro h
          rw [← h] at hk
          exact hmem hk
        rw [List.filter_append, List.filter_singleton, decide_eq_false hck]
        simp
      · have hps : ps.filter (fun q => decide (cellKey s q = cellKey s p)) = [] := by
          rw [List.filter_eq_nil_iff]
          intro q hq hdec
          exact hmem ((mem_firstAppearanceKeys ps s (cellKey s p)).mpr
            ⟨q, hq, of_decide_eq_true hdec⟩)
        simp only [List.map_cons, List.map_nil, List.filter_append, hps,
          List.filter_singleton, decide_eq_true (rfl : cellKey s p = cellKey s p)]
        simp [cellKey]

lemma addToCluster_flatten_perm (acc : List Cluster) (gx gy : ℤ) (p : Point) :
    List.Perm (((addToCluster acc gx gy p).map Cluster.points).flatten)
      ((acc.map Cluster.points).flatten ++ [p]) := by
  induction acc with
  | nil => simp [addToCluster]
  | cons c rest ih =>
    by_cases hc : c.gridX = gx ∧ c.gridY = gy
    · simp only [addToCluster, if_pos hc, List.map_cons, List.flatten_cons]
      rw [List.append_assoc, List.append_assoc]
      exact List.Perm.append_left c.points List.perm_append_comm
    · simp only [addToCluster, if_neg hc, List.map_cons, List.flatten_cons]
      rw [List.append_assoc]
      exact List.Perm.append_left c.points ih

lemma createGridClusters_flatten_perm (points : List Point) (s : ℝ) :
    List.Perm (((createGridClusters points s).map Cluster.points).flatten) points := by
  suffices h : ∀ (ps : List Point) (acc : List Cluster),
      List.Perm (((ps.foldl (fun clusters point =>
          addToCluster clusters ⌊point.lat / s⌋ ⌊point.lng / s⌋ point) acc).map
            Cluster.points).flatten)
        ((acc.map Cluster.points).flatten ++ ps) by
    unfold createGridClusters
    simpa using h points []
  intro ps
  induction ps with
  | nil =>
    intro acc
    simp
  | cons p ps ih =>
    intro acc
    rw [List.foldl_cons]
    refine (ih _).trans ?_
    have h1 := addToCluster_flatten_perm acc ⌊p.lat / s⌋ ⌊p.lng / s⌋ p
    refine (h1.append_right ps).trans ?_
    rw [List.append_assoc, List.singleton_append]

lemma mem_cluster_points_iff (points : List Point) (s : ℝ) (c : Cluster)
    (hc : c ∈ createGridClusters points s) (r : Point) :
    r ∈ c.points ↔ r ∈ points ∧ cellKey s r = (c.gridX, c.gridY) := by
  rw [createGridClusters_characterization] at hc
  rcases List.mem_map.mp hc with ⟨k, hk, hF⟩
  subst hF
  constructor
  · intro hr
    have h2 := List.mem_filter.mp hr
    refine ⟨h2.1, ?_⟩
    rw [of_decide_eq_true h2.2]
  · rintro ⟨hr, hkey⟩
    refine List.mem_filter.mpr ⟨hr, decide_eq_true ?_⟩
    exact hkey.trans Prod.mk.eta

lemma cluster_unique_of_mem (points : List Point) (s : ℝ) (c1 c2 : Cluster)
    (hc1 : c1 ∈ createGridClusters points s) (hc2 : c2 ∈ createGridClusters points s)
    (p : Point) (hp1 : p ∈ c1.points) (hp2 : p ∈ c2.points) : c1 = c2 := by
  rw [createGridClusters_characterization] at hc1 hc2
  rcases List.mem_map.mp hc1 with ⟨k1, hk1, hF1⟩
  rcases List.mem_map.mp hc2 with ⟨k2, hk2, hF2⟩
  subst hF1
  subst hF2
  have h1 : cellKey s p = k1 := of_decide_eq_true (List.mem_filter.mp hp1).2
  have h2 : cellKey s p = k2 := of_decide_eq_true (List.mem_filter.mp hp2).2
  rw [← h1, ← h2]

lemma cluster_of_mem (points : List Point) (s : ℝ) (p : Point) (hp : p ∈ points) :
    ∃ c, c ∈ createGridClusters points s ∧ p ∈ c.points ∧
      (c.gridX, c.gridY) = cellKey s p := by
  rw [createGridClusters_characterization]
  refine ⟨⟨(cellKey s p).1, (cellKey s p).2,
    points.filter (fun q => decide (cellKey s q = cellKey s p))⟩, ?_, ?_, ?_⟩
  · exact List.mem_map.mpr ⟨cellKey s p,
      (mem_firstAppearanceKeys points s (cellKey s p)).mpr ⟨p, hp, rfl⟩, rfl⟩
  · exact List.mem_filter.mpr ⟨hp, decide_eq_true rfl⟩
  · exact Prod.mk.eta

lemma findNearby_neg_radius_empty (points : List Point) (center : ℝ × ℝ) (r : ℝ)
    (hr : r < 0) : findNearbyPoints points center r = [] := by
  unfold findNearbyPoints
  have hf : points.filter (fun p => decide (pointDistance center p ≤ r)) = [] := by
    rw [List.filter_eq_nil_iff]
    intro p hp hdec
    have hle := of_decide_eq_true hdec
    have hnn : 0 ≤ pointDistance center p := calculateDistance_nonneg _ _ _ _
    linarith
  rw [hf]
  simp

/-- C2: for every point collection and positive cell size, the grid clusters
form a total partition of the input: the concatenation of all member lists
is a permutation of the input (same multiset), and no point belongs to two
distinct clusters. -/
theorem cluster_partition (points : List Point) (s : ℝ) (hs : 0 < s) :
    List.Perm (((createGridClusters points s).map Cluster.points).flatten) points ∧
      ∀ c1 ∈ createGridClusters points s, ∀ c2 ∈ createGridClusters points s,
        c1 ≠ c2 → ∀ p : Point, p ∈ c1.points → p ∉ c2.points := by
  refine ⟨createGridClusters_flatten_perm points s, ?_⟩
  intro c1 hc1 c2 hc2 hne p hp1 hp2
  exact hne (cluster_unique_of_mem points s c1 c2 hc1 hc2 p hp1 hp2)

/-- C2 witness: instantiated at one sample point and cell size 1. -/
theorem cluster_partition_witness :
    (0:ℝ) < 1 ∧
      List.Perm (((createGridClusters [pt0] 1).map Cluster.points).flatten) [pt0] :=
  ⟨one_pos, (cluster_partition [pt0] 1 one_pos).1⟩

/-- C3: two input points land in the same cluster exactly when their cell
keys (floor(lat / s), floor(lon / s)) agree, and the grid coordinates
stored on a cluster equal the cell key of each of its members. -/
theorem cluster_cellKey_characterization (points : List Point) (s : ℝ)
    (hs : 0 < s) :
    (∀ c ∈ createGridClusters points s, ∀ p ∈ c.points,
        cellKey s p = (c.gridX, c.gridY)) ∧
      ∀ p ∈ points, ∀ q ∈ points,
        ((∃ c ∈ createGridClusters points s, p ∈ c.points ∧ q ∈ c.points) ↔
          cellKey s p = cellKey s q) := by
  constructor
  · intro c hc p hp
    exact ((mem_cluster_points_iff points s c hc p).mp hp).2
  · intro p hp q hq
    constructor
    · rintro ⟨c, hc, hpc, hqc⟩
      have h1 := ((mem_cluster_points_iff points s c hc p).mp hpc).2
      have h2 := ((mem_cluster_points_iff points s c hc q).mp hqc).2
      rw [h1, h2]
    · intro hkey
      obtain ⟨c, hc, hpc, hck⟩ := cluster_of_mem points s p hp
      refine ⟨c, hc, hpc, (mem_cluster_points_iff points s c hc q).mpr ⟨hq, ?_⟩⟩
      exact (hck.trans hkey).symm

/-- C3 witness: instantiated at one sample point and cell size 1. -/
theorem cluster_cellKey_witness : (0:ℝ) < 1 ∧ cellKey 1 pt0 = (0, 0) := by
  refine ⟨one_pos, ?_⟩
  have h := (cluster_cellKey_characterization [pt0] 1 one_pos).1
    ⟨0, 0, [pt0]⟩ ?_ pt0 ?_
  · exact h
  · show ⟨0, 0, [pt0]⟩ ∈ createGridClusters [pt0] 1
    have : createGridClusters [pt0] 1 = [⟨0, 0, [pt0]⟩] := by
      simp [createGridClusters, addToCluster, pt0]
    rw [this]
    exact List.mem_singleton.mpr rfl
  · show pt0 ∈ ([pt0] : List Point)
    exact List.mem_singleton.mpr rfl

/-- C4: the clusterer is deterministic and order-preserving: each cluster
holds exactly the input points of its cell in input order (a filter of the
input), and the cluster sequence follows the first appearance of each cell
key in the input. -/
theorem cluster_order_deterministic (points : List Point) (s : ℝ) (hs : 0 < s) :
    (∀ c ∈ createGridClusters points s,
        c.points = points.filter
          (fun p => decide (cellKey s p = (c.gridX, c.gridY)))) ∧
      (createGridClusters points s).map (fun c => (c.gridX, c.gridY)) =
        firstAppearanceKeys points s := by
  constructor
  · intro c hc
    rw [createGridClusters_characterization] at hc
    rcases List.mem_map.mp hc with ⟨k, hk, hF⟩
    subst hF
    simp [Prod.mk.eta]
  · rw [createGridClusters_characterization, List.map_map]
    have hfun : ((fun c : Cluster => (c.gridX, c.gridY)) ∘
        (fun k : ℤ × ℤ => (⟨k.1, k.2,
          points.filter (fun p => decide (cellKey s p = k))⟩ : Cluster))) =
        fun k => k := by
      funext k
      simp
    rw [hfun]
    simp

/-- C4 witness: instantiated at one sample point and cell size 1. -/
theorem cluster_order_witness :
    (0:ℝ) < 1 ∧
      (createGridClusters [pt0] 1).map (fun c => (c.gridX, c.gridY)) =
        firstAppearanceKeys [pt0] 1 :=
  ⟨one_pos, (cluster_order_deterministic [pt0] 1 one_pos).2⟩

/-- C10: the clusterer is total over every cell size, zero and negative
included: it always returns, the concatenation of all member lists is a
permutation of the input, and every input point lies in exactly one of the
returned clusters. -/
theorem cluster_total_any_cellSize (points : List Point) (s : ℝ) :
    List.Perm (((createGridClusters points s).map Cluster.points).flatten) points ∧
      ∀ p ∈ points, ∃! c, c ∈ createGridClusters points s ∧ p ∈ c.points := by
  refine ⟨createGridClusters_flatten_perm points s, ?_⟩
  intro p hp
  obtain ⟨c, hc, hpc, hkey⟩ := cluster_of_mem points s p hp
  refine ⟨c, ⟨hc, hpc⟩, ?_⟩
  rintro c2 ⟨hc2, hpc2⟩
  exact cluster_unique_of_mem points s c2 c hc2 hc p hpc2 hpc

/-- C10 witness: one sample point with the degenerate cell size 0 and a
negative cell size. -/
theorem cluster_total_witness :
    List.Perm (((createGridClusters [pt0] 0).map Cluster.points).flatten) [pt0] ∧
      List.Perm
        (((createGridClusters [pt0] (-2)).map Cluster.points).flatten) [pt0] :=
  ⟨(cluster_total_any_cellSize [pt0] 0).1, (cluster_total_any_cellSize [pt0] (-2)).1⟩

/-- C7 counterexample: with cell size 0 the clusterer still returns a normal
cluster list, and with radius -5 the nearby query returns the empty list;
neither call fails with an InvalidArgument error. -/
theorem invalidArgument_not_raised :
    findNearbyPoints [pt0] (0, 0) (-5) = [] ∧
      (createGridClusters [pt0] 0).map Cluster.points = [[pt0]] := by
  constructor
  · exact findNearby_neg_radius_empty [pt0] (0, 0) (-5) (by norm_num)
  · simp [createGridClusters, addToCluster]

/-- C7 amended: calling the clusterer with cell size 0 and the nearby query
with a negative radius does not raise an error: the query returns the empty
sequence and the clusterer still returns a cluster list covering all input
points. -/
theorem invalidArgument_amended (points : List Point) (center : ℝ × ℝ) (r : ℝ)
    (hr : r < 0) :
    findNearbyPoints points center r = [] ∧
      List.Perm (((createGridClusters points 0).map Cluster.points).flatten)
        points :=
  ⟨findNearby_neg_radius_empty points center r hr,
    createGridClusters_flatten_perm points 0⟩

/-- C7 witness: instantiated at radius -5. -/
theorem invalidArgument_amended_witness :
    (-5:ℝ) < 0 ∧ findNearbyPoints [] (0, 0) (-5) = [] :=
  ⟨by norm_num, (invalidArgument_amended [] (0, 0) (-5) (by norm_num)).1⟩

/-- C9: a strictly negative radius makes the nearby query return the empty
sequence without any error, because every computed distance is
non-negative. -/
theorem negRadius_returns_empty (points : List Point) (center : ℝ × ℝ) (r : ℝ)
    (hr : r < 0) : findNearbyPoints points center r = [] :=
  findNearby_neg_radius_empty points center r hr

/-- C9 witness: instantiated at one sample point and radius -1. -/
theorem negRadius_witness :
    (-1:ℝ) < 0 ∧ findNearbyPoints [pt0] (3, 4) (-1) = [] :=
  ⟨by norm_num, negRadius_returns_empty [pt0] (3, 4) (-1) (by norm_num)⟩
